import Mathlib

/-!
Verification of the `state_machine` framework: a shallow embedding of the
node/machine decorators (`src/state_machine/decorator/node.py`,
`machine.py`, `handle_exceptions.py`), the class-level validator
(`AbstractMachine.validate`) and the driver loop (`AbstractMachine.execute`)
from `src/state_machine/abstract_machine.py`, together with the concrete
`MachineArchiveEncrypted` pipeline and the unit-test machines.

Python conventions carried over:
  * node and transition targets are identified by their `__node_name__`
    strings; attribute lookup on the class is modelled by name lookup in
    the list of node members plus a list of non-node attribute names;
  * `raise`ing an exception is modelled by `Except.error` (for decoration
    and validation) or by an error-carrying outcome (for the driver, which
    must also report the results accumulated so far, mirroring
    `self.results`);
  * the `__debug__` flag of the Python interpreter is an explicit `Bool`
    parameter wherever the source consults it.
-/

namespace StateMachine

/-- `Result` from `src/state_machine/result.py`: `Success { node }` and
`Failure { node, message }`.  The framework only ever constructs these two
variants (the `Result` base class itself is never instantiated). -/
inductive Result where
  | success (node : String)
  | failure (node : String) (message : String)
deriving Repr, DecidableEq

def Result.isSuccess : Result → Bool
  | .success _ => true
  | .failure _ _ => false

def Result.isFailure : Result → Bool
  | .success _ => false
  | .failure _ _ => true

/-- The value a node body hands back to the driver, from the driver's point
of view (`src/state_machine/transition.py`).  `transition` carries the
`__node_name__` of the method passed as `exit_to`; a target that is not a
node-decorated method of the machine is a name that fails node lookup.
`nonTransition` models a body returning something that is not a
`Transition` at all. -/
inductive TransValue where
  | transition (result : Result) (exit_to : String)
  | exit (result : Result)
  | nonTransition
deriving Repr, DecidableEq

/-- The exception-handling marking left on a node by the second decorator:
no marking at all (neither decorator was applied, `__has_exception_handling__`
absent), `@no_exceptions` (`False`), or `@handle_exceptions(on_exception=X)`
(`True` with `__on_exception__ = X`). -/
inductive ExceptionPolicy where
  | unspecified
  | noExceptions
  | handles (on_exception : String)
deriving Repr, DecidableEq

/-- The metadata `@node` (and the exception decorators) attach to a node
function: `__node_name__`, `__is_entry__`, `__is_terminal__`,
`__overview__`, `__happy_paths__`, `__unhappy_paths__`,
`__invokes_machine__`, and the exception policy. -/
structure NodeMeta where
  node_name : String
  is_entry : Bool
  is_terminal : Bool
  overview : String
  happy_paths : List String
  unhappy_paths : List String
  invokes_machine : String
  policy : ExceptionPolicy
deriving Repr, DecidableEq

/-- `func.__exits__ = func.__happy_paths__ + func.__unhappy_paths__`
(computed once at decoration time in the source; the wrapper in
`handle_exceptions.py` copies it unchanged, so deriving it is faithful). -/
def NodeMeta.exits (n : NodeMeta) : List String :=
  n.happy_paths ++ n.unhappy_paths

/-- The one shared error taxonomy of
`src/state_machine/exception/machine.py` and
`src/state_machine/exception/documentation.py`, plus Python's built-in
`AttributeError` (raised when `__node_name__` is read off a method that the
`@node` decorator never touched).  Message payloads follow the source's
f-strings except that `cls.__module__` prefixes are omitted (the embedding
does not model Python modules). -/
inductive MachineError where
  | noEntryNode
  | multipleEntryNode
  | noTerminalNode
  | undefinedNode (node : String) (missing : String)
  | attributeError (name : String)
  | noExceptionHandling (node : String)
  | illegalTransition (message : String)
  | unreachableNode (node : String)
  | notTerminalNode (node : String)
  | overrideError (name : String)
  | missingDocString
  | missingOverview
deriving Repr, DecidableEq

/-! ### The `@node` decorator (`src/state_machine/decorator/node.py`) -/

/-- The parsed structured docstring of a node, as extracted by
`YAML().load(func.__doc__)` in `node.py` (the YAML parsing itself is out of
scope; the decorator consumes exactly these keys, with these defaults). -/
structure DocSpec where
  overview : String
  is_entry : Bool
  is_terminal : Bool
  happy_paths : List String
  unhappy_paths : List String
  invokes_machine : String
deriving Repr, DecidableEq

/-- The `reserved_method_names` tuple of `node.py`, verbatim (including the
misspelt `"excetion"` and the `master_config` / `my_config` entries). -/
def reserved_method_names : List String :=
  ["validate", "excetion", "exit", "failure", "execute", "success",
   "failure_prefix", "logger", "master_config", "my_config", "node_name",
   "state"]

/-- The `@node` decorator: reserved-name guard, docstring-presence guard
(`none` models a function whose `__doc__` is missing or empty, both falsy),
then extraction of the metadata with the overview-presence guard.  No
exception policy is attached yet (`__has_exception_handling__` absent). -/
def node_decorator (name : String) (docstring : Option DocSpec) :
    Except MachineError NodeMeta :=
  if reserved_method_names.contains name then
    .error (.overrideError name)
  else
    match docstring with
    | none => .error .missingDocString
    | some doc =>
      if doc.overview = "" then
        .error .missingOverview
      else
        .ok { node_name := name
              is_entry := doc.is_entry
              is_terminal := doc.is_terminal
              overview := doc.overview
              happy_paths := doc.happy_paths
              unhappy_paths := doc.unhappy_paths
              invokes_machine := doc.invokes_machine
              policy := .unspecified }

/-- `@no_exceptions` (`src/state_machine/decorator/no_exceptions.py`): sets
`__has_exception_handling__ = False` on an already-decorated node. -/
def no_exceptions_decorator (n : NodeMeta) : NodeMeta :=
  { n with policy := .noExceptions }

/-! ### The `@handle_exceptions` wrapper
(`src/state_machine/decorator/handle_exceptions.py`) together with
`AbstractMachine.exception` (`abstract_machine.py`). -/

/-- The per-instance context the helper methods consult: the class name
(`self.__class__.__name__`, used by the `node_name` property) and the
machine's `failure_prefix` hook. -/
structure Ctx where
  className : String
  failurePrefix : String
deriving Repr, DecidableEq

/-- What the original (unwrapped) body of a node does on one invocation
over machine state `σ`: return a value, or raise an exception carrying
message `e`.  State threading makes the body's side effects on the state
object explicit. -/
inductive RawOutcome (σ : Type) where
  | returns (t : TransValue) (s : σ)
  | raises (e : String) (s : σ)

/-- A node as the machine sees it: the decoration metadata plus the body. -/
structure RawNode (σ : Type) where
  meta : NodeMeta
  body : Ctx → σ → RawOutcome σ

/-- `AbstractMachine.exception(exit_to=..., exception=...)`: logs, then
returns a `Transition` whose result is a
`Failure(node=self.node_name, message=f"{self.failure_prefix} unrecognized
exception: {exception}")`.  `self.node_name` is
`f"{class name}.{self._current_node.__node_name__}"`; during a node call
the current node is the node itself. -/
def exceptionHelper (ctx : Ctx) (currentNodeName : String) (exit_to : String)
    (e : String) : TransValue :=
  .transition
    (.failure (ctx.className ++ "." ++ currentNodeName)
      (ctx.failurePrefix ++ " unrecognized exception: " ++ e))
    exit_to

/-- `handle_exceptions(on_exception=X)`: wraps the body in a try/except that
converts any exception into `self.exception(exit_to=getattr(self, X), ...)`,
and copies every metadata attribute of the original body onto the wrapper
(`__node_name__`, `__is_entry__`, `__is_terminal__`, `__overview__`,
`__happy_paths__`, `__unhappy_paths__`, `__exits__`, `__invokes_machine__`),
adding `__on_exception__ = X` and `__has_exception_handling__ = True`. -/
def handle_exceptions_decorator (on_exception : String) (n : RawNode σ) :
    RawNode σ :=
  { meta := { node_name := n.meta.node_name
              is_entry := n.meta.is_entry
              is_terminal := n.meta.is_terminal
              overview := n.meta.overview
              happy_paths := n.meta.happy_paths
              unhappy_paths := n.meta.unhappy_paths
              invokes_machine := n.meta.invokes_machine
              policy := .handles on_exception }
    body := fun ctx s =>
      match n.body ctx s with
      | .returns t s2 => .returns t s2
      | .raises e s2 =>
        .returns (exceptionHelper ctx n.meta.node_name on_exception e) s2 }

/-! ### The machine class model, the `@machine` decorator
(`src/state_machine/decorator/machine.py`) and
`AbstractMachine.validate`. -/

/-- A machine class as the `@machine` decorator and the validator see it:
the node-decorated members (in `inspect.getmembers` order, i.e. sorted by
name, and including the members inherited from `AbstractMachine` such as
`report_results`) plus the names of the non-node attributes the class also
carries (`validate`, `execute`, `exit`, `failure`, `success`, `exception`,
`failure_prefix`, `node_name`, `state`, ...). -/
structure MachineClass where
  overview : String
  todo : String
  entry_nodes : List NodeMeta
  terminal_nodes : List NodeMeta
  nodes : List NodeMeta
  members : List NodeMeta
  extra_attrs : List String
deriving Repr, DecidableEq

/-- `getattr(cls, name)` when the result is expected to be a node: yields
the node member of that name, or `none` when `name` is not a node
(either a plain attribute or entirely absent). -/
def getattrNode (cls : MachineClass) (name : String) : Option NodeMeta :=
  cls.members.find? (fun m => m.node_name == name)

/-- `hasattr(cls, name)`: the name is either a node member or one of the
other attributes of the class. -/
def hasattrB (cls : MachineClass) (name : String) : Bool :=
  (getattrNode cls name).isSome || cls.extra_attrs.contains name

/-- The inner loop of the exit-path compilation in `validate`: for each
`method_name` in `node.__exits__`, `UndefinedNodeError` if the class has no
such attribute, otherwise append `getattr(cls, method_name).__node_name__`
(an `AttributeError` if the attribute is not a node). -/
def compileExitsOf (cls : MachineClass) (owner : String) :
    List String → Except MachineError (List String)
  | [] => .ok []
  | method_name :: rest =>
    if hasattrB cls method_name then
      match getattrNode cls method_name with
      | some m => do
        let tail ← compileExitsOf cls owner rest
        pure (m.node_name :: tail)
      | none => .error (.attributeError method_name)
    else
      .error (.undefinedNode owner method_name)

/-- The full exit-path compilation over `all_nodes` (the `exits` list the
reachability loop later consults). -/
def compileExits (cls : MachineClass) :
    List NodeMeta → Except MachineError (List String)
  | [] => .ok []
  | n :: rest => do
    let ex ← compileExitsOf cls n.node_name n.exits
    let tail ← compileExits cls rest
    pure (ex ++ tail)

/-- The exception-handling check of `validate`: every node must carry an
exception-handling marking, and a `handle_exceptions` node's
`__on_exception__` must be one of its `__unhappy_paths__`. -/
def checkExceptionSpecs : List NodeMeta → Except MachineError Unit
  | [] => .ok ()
  | n :: rest =>
    match n.policy with
    | .unspecified => .error (.noExceptionHandling n.node_name)
    | .handles x =>
      if n.unhappy_paths.contains x then checkExceptionSpecs rest
      else
        .error (.illegalTransition
          (n.node_name ++ " exception handler not an allowable exit: " ++ x))
    | .noExceptions => checkExceptionSpecs rest

/-- The final loop of `validate`: every non-entry node's name must occur in
the compiled exits list, and a terminal node must have no exit paths. -/
def checkReachableAndTerminal (exits : List String) :
    List NodeMeta → Except MachineError Unit
  | [] => .ok ()
  | n :: rest =>
    if !n.is_entry && !(exits.contains n.node_name) then
      .error (.unreachableNode n.node_name)
    else if n.is_terminal && !n.exits.isEmpty then
      .error (.notTerminalNode n.node_name)
    else
      checkReachableAndTerminal exits rest

/-- `AbstractMachine.validate` (classmethod).  On success it returns the
machine's single entry node (the method also assigns
`cls.__entry_node__ = cls.__entry_nodes__[0]`). -/
def validate (cls : MachineClass) : Except MachineError NodeMeta :=
  match cls.entry_nodes with
  | [] => .error .noEntryNode
  | entry :: rest =>
    if rest.length > 0 then
      .error .multipleEntryNode
    else if cls.terminal_nodes.isEmpty then
      .error .noTerminalNode
    else
      let all_nodes := cls.entry_nodes ++ cls.nodes ++ cls.terminal_nodes
      do
        let exits ← compileExits cls all_nodes
        checkExceptionSpecs all_nodes
        checkReachableAndTerminal exits all_nodes
        pure entry

/-- The raw class definition the `@machine` decorator receives: the (parsed)
class docstring — `none` when missing — and the node members plus non-node
attribute names. -/
structure ClassDef where
  docstring : Option (String × String)
  members : List NodeMeta
  extra_attrs : List String

/-- The member-distribution pass of the `@machine` decorator: one sweep over
`inspect.getmembers(cls)` appending each node to the entry / terminal /
interior lists according to its flags (a node that is both entry and
terminal lands in both of the first two lists and not in the third). -/
def partitionClass (overview todo : String) (members : List NodeMeta)
    (extra_attrs : List String) : MachineClass :=
  { overview := overview
    todo := todo
    entry_nodes := members.filter (fun m => m.is_entry)
    terminal_nodes := members.filter (fun m => m.is_terminal)
    nodes := members.filter (fun m => !m.is_entry && !m.is_terminal)
    members := members
    extra_attrs := extra_attrs }

/-- The `@machine` decorator: docstring guards (each under `if __debug__`),
partition of the node members into entry / terminal / interior lists in
member order, then — again only under `if __debug__` — a call to
`cls.validate()`. -/
def machine_decorator (debug : Bool) (cls : ClassDef) :
    Except MachineError MachineClass :=
  if debug && cls.docstring.isNone then
    .error .missingDocString
  else
    let doc := cls.docstring.getD ("", "")
    if debug && doc.1 == "" then
      .error .missingOverview
    else
      let mc : MachineClass :=
        partitionClass doc.1 doc.2 cls.members cls.extra_attrs
      if debug then
        match validate mc with
        | .error e => .error e
        | .ok _ => .ok mc
      else
        .ok mc

/-! ### The driver (`AbstractMachine.execute`). -/

/-- A machine instance ready to run: the validated class-level metadata,
the execution context, and the bodies of the node members (keyed by
`__node_name__`; the driver only ever invokes names that are members).
The machine state threads through the bodies. -/
structure MachineProg (σ : Type) where
  cls : MachineClass
  ctx : Ctx
  body : String → σ → TransValue × σ

/-- What a run of `execute` produced.  Each accepted step is recorded as
the pair (`__node_name__` of the node that was executed, the `Result` it
returned); the Python `self.results` list is the second projection.  An
`error` outcome is a raised exception, carrying the `self.results` contents
at the time of the raise; `noFuel` marks exhaustion of the step budget
(the Python loop has none and simply keeps iterating). -/
inductive RunOutcome where
  | ok (steps : List (String × Result))
  | error (e : MachineError) (steps : List (String × Result))
  | noFuel (steps : List (String × Result))
deriving Repr, DecidableEq

/-- The `self.results` list an outcome carries. -/
def RunOutcome.results : RunOutcome → List Result
  | .ok steps => steps.map Prod.snd
  | .error _ steps => steps.map Prod.snd
  | .noFuel steps => steps.map Prod.snd

/-- One-shot legality screen on the value a node returned, mirroring the
five runtime guards of the driver loop (non-`Transition` return; `Exit`
from a node with exit paths; transition target unknown or outside
`previous.__exits__`; `Failure` outside `previous.__unhappy_paths__`;
`Success` outside `previous.__happy_paths__`).  `true` means some guard
fires. -/
def failsCheck (cls : MachineClass) (current : NodeMeta) (tv : TransValue) :
    Bool :=
  match tv with
  | .nonTransition => true
  | .exit _ => !current.exits.isEmpty
  | .transition r target =>
    match getattrNode cls target with
    | none => true
    | some tgt =>
      !(current.exits.contains tgt.node_name) ||
      (r.isFailure && !(current.unhappy_paths.contains tgt.node_name)) ||
      (r.isSuccess && !(current.happy_paths.contains tgt.node_name))

/-- The `while True:` loop of `execute`, one constructor-level transcription
per guard, in source order.  `currentName` is `self._current_node` (the
driver reads its `__node_name__` lazily, hence the lookup at the head of
each iteration — the debug log line dereferences it even when `__debug__`
is off); `acc` is `self.results` (paired with the executing node's name). -/
def execLoop (debug : Bool) (p : MachineProg σ) :
    Nat → String → σ → List (String × Result) → RunOutcome
  | 0, _, _, acc => .noFuel acc
  | fuel + 1, currentName, s, acc =>
    match getattrNode p.cls currentName with
    | none => .error (.attributeError "__node_name__") acc
    | some current =>
      match p.body currentName s with
      | (.nonTransition, _) =>
        -- `if __debug__ and not isinstance(transition, Transition)`; with
        -- the guard off, `transition.exit_to` below raises AttributeError.
        if debug then
          .error (.illegalTransition
            (currentName ++ " did not return a Transition")) acc
        else
          .error (.attributeError "exit_to") acc
      | (.exit r, _) =>
        -- `if isinstance(transition, Exit)` — this guard is NOT gated on
        -- `__debug__`: it consults `self._current_node.__exits__` only.
        if !current.exits.isEmpty then
          .error (.notTerminalNode
            (p.ctx.className ++ "." ++ currentName ++
              " returned Exit but is not a terminal node.")) acc
        else
          .ok (acc ++ [(currentName, r)])
      | (.transition r target, s2) =>
        -- `self._current_node = transition.exit_to`, then the three gated
        -- edge checks, each reading `self._current_node.__node_name__`.
        match getattrNode p.cls target with
        | none =>
          if debug then
            .error (.attributeError "__node_name__") acc
          else
            execLoop debug p fuel target s2 (acc ++ [(currentName, r)])
        | some tgt =>
          if debug && !(current.exits.contains tgt.node_name) then
            .error (.illegalTransition
              (currentName ++ " cannot transition to " ++ tgt.node_name)) acc
          else if debug && r.isFailure &&
              !(current.unhappy_paths.contains tgt.node_name) then
            .error (.illegalTransition
              (currentName ++ " made an unhappy transition on the happy path to "
                ++ tgt.node_name)) acc
          else if debug && r.isSuccess &&
              !(current.happy_paths.contains tgt.node_name) then
            .error (.illegalTransition
              (currentName ++ " made an happy transition on the unhappy path to "
                ++ tgt.node_name)) acc
          else
            execLoop debug p fuel target s2 (acc ++ [(currentName, r)])

/-- `AbstractMachine.execute`: start from `self.__entry_node__`
(`cls.__entry_nodes__[0]`, assigned by `validate`; absent — an
`AttributeError` — when the class has no entry nodes) and iterate. -/
def execute (debug : Bool) (p : MachineProg σ) (s : σ) (fuel : Nat) :
    RunOutcome :=
  match p.cls.entry_nodes with
  | [] => .error (.attributeError "__entry_node__") []
  | e :: _ => execLoop debug p fuel e.node_name s []

/-! ### Concrete machines from the repository. -/

/-- Shorthand constructor for a node's metadata (overview text is the
docstring's `overview` section). -/
def mkNode (name : String) (entry terminal : Bool)
    (happy unhappy : List String) (overview : String)
    (pol : ExceptionPolicy) : NodeMeta :=
  { node_name := name
    is_entry := entry
    is_terminal := terminal
    overview := overview
    happy_paths := happy
    unhappy_paths := unhappy
    invokes_machine := ""
    policy := pol }

/-- The non-node attributes every `AbstractMachine` subclass carries
(methods and properties of the base class). -/
def abstractMachineAttrs : List String :=
  ["validate", "execute", "exception", "exit", "failure", "success",
   "failure_prefix", "logger", "node_name", "state", "results"]

/-- The node member inherited from `AbstractMachine`: `report_results`,
`@no_exceptions @node`, terminal, no paths. -/
def baseReportResults : NodeMeta :=
  mkNode "report_results" false true [] []
    "The final exit node for all state-machines." .noExceptions

/-- The four-node machine of
`tests/test_state_machine/machine/test_happy_path.py` (also the shape used
by `test_failure_down_happy_path.py` and `test_handle_exceptions.py`):
members in `inspect.getmembers` (alphabetical) order. -/
def testHappyMembers : List NodeMeta :=
  [ mkNode "entry" true false ["happy"] ["unhappy"] "Yo." .noExceptions,
    mkNode "happier" false true [] [] "Yo." .noExceptions,
    mkNode "happy" false false ["happier"] ["unhappy"] "Yo." .noExceptions,
    baseReportResults,
    mkNode "unhappy" false false ["report_results"] [] "Yo." .noExceptions ]

def testHappyDef : ClassDef :=
  { docstring := some ("Yo.", "")
    members := testHappyMembers
    extra_attrs := abstractMachineAttrs }

def testHappyCls : MachineClass :=
  partitionClass "Yo." "" testHappyMembers abstractMachineAttrs

/-- The node bodies of `test_happy_path`: `entry` succeeds to `happy`,
`happy` fails ("uh oh") to `unhappy`, `unhappy` succeeds to
`report_results`, which returns `self.exit()`. -/
def testHappyBody : String → Unit → TransValue × Unit
  | "entry", _ => (.transition (.success "Machine.entry") "happy", ())
  | "happy", _ =>
    (.transition (.failure "Machine.happy" "Machine uh oh") "unhappy", ())
  | "unhappy", _ => (.transition (.success "Machine.unhappy") "report_results", ())
  | "report_results", _ => (.exit (.success "Machine.report_results"), ())
  | _, _ => (.nonTransition, ())

def testHappyProg : MachineProg Unit :=
  { cls := testHappyCls
    ctx := { className := "Machine", failurePrefix := "Machine" }
    body := testHappyBody }

/-- The bodies of `test_failure_down_happy_path.py` over the same class
shape: `entry` returns `self.failure(exit_to=self.happy, ...)`, sending a
`Failure` down a declared happy path. -/
def testFailHappyBody : String → Unit → TransValue × Unit
  | "entry", _ =>
    (.transition (.failure "Machine.entry" "Machine uh oh") "happy", ())
  | "report_results", _ => (.exit (.success "Machine.report_results"), ())
  | _, _ => (.nonTransition, ())

def testFailHappyProg : MachineProg Unit :=
  { cls := testHappyCls
    ctx := { className := "Machine", failurePrefix := "Machine" }
    body := testFailHappyBody }

/-- A machine whose interior node `mid` has no declared exit paths at all
(which no validation rule forbids) and whose body returns `Exit` from it:
members `entry` (entry, happy paths `mid`, `report_results`), `mid`
(interior, no paths), `report_results` (terminal, inherited shape). -/
def midExitMembers : List NodeMeta :=
  [ mkNode "entry" true false ["mid", "report_results"] [] "Yo." .noExceptions,
    mkNode "mid" false false [] [] "Yo." .noExceptions,
    baseReportResults ]

def midExitCls : MachineClass :=
  partitionClass "Yo." "" midExitMembers abstractMachineAttrs

def midExitBody : String → Unit → TransValue × Unit
  | "entry", _ => (.transition (.success "Machine.entry") "mid", ())
  | "mid", _ => (.exit (.success "Machine.mid"), ())
  | _, _ => (.nonTransition, ())

def midExitProg : MachineProg Unit :=
  { cls := midExitCls
    ctx := { className := "Machine", failurePrefix := "Machine" }
    body := midExitBody }

/-- A machine whose entry node has declared exits yet returns `Exit`:
the driver must refuse it at runtime. -/
def entryExitMembers : List NodeMeta :=
  [ mkNode "entry" true false ["report_results"] [] "Yo." .noExceptions,
    baseReportResults ]

def entryExitCls : MachineClass :=
  partitionClass "Yo." "" entryExitMembers abstractMachineAttrs

def entryExitBody : String → Unit → TransValue × Unit
  | "entry", _ => (.exit (.success "Machine.entry"), ())
  | _, _ => (.nonTransition, ())

def entryExitProg : MachineProg Unit :=
  { cls := entryExitCls
    ctx := { className := "Machine", failurePrefix := "Machine" }
    body := entryExitBody }

/-- A machine that validates although its node `loner` can only be reached
from itself: `entry → report_results`, and `loner` lists itself as its own
happy path, which satisfies the validator's membership test (the compiled
exits list concatenates every node's exits, the node's own included). -/
def lonerMembers : List NodeMeta :=
  [ mkNode "entry" true false ["report_results"] [] "Yo." .noExceptions,
    mkNode "loner" false false ["loner"] [] "Yo." .noExceptions,
    baseReportResults ]

def lonerCls : MachineClass :=
  partitionClass "Yo." "" lonerMembers abstractMachineAttrs

/-- A machine whose entry node lists `execute` — an existing non-node
attribute of the machine base — as an exit path. -/
def executeExitMembers : List NodeMeta :=
  [ mkNode "entry" true false ["execute"] [] "Yo." .noExceptions,
    baseReportResults ]

def executeExitCls : MachineClass :=
  partitionClass "Yo." "" executeExitMembers abstractMachineAttrs

/-- The machine of `test_machine_undefined_node`: an exit path names `bob`,
which is no attribute of the class at all. -/
def bobMembers : List NodeMeta :=
  [ mkNode "entry" true false ["bob"] [] "Yo." .noExceptions,
    baseReportResults ]

def bobCls : MachineClass :=
  partitionClass "Yo." "" bobMembers abstractMachineAttrs

/-- The machine of `test_machine_validation_missing_entry_node`: no member
carries `is_entry`. -/
def noEntryMembers : List NodeMeta :=
  [ mkNode "alpha" false false ["report_results"] [] "Yo." .noExceptions,
    baseReportResults ]

def noEntryDef : ClassDef :=
  { docstring := some ("Yo.", "")
    members := noEntryMembers
    extra_attrs := abstractMachineAttrs }

/-! #### `MachineArchiveEncrypted`
(`src/service/archive_encrypted/archive_encrypted_machine.py`),
members in `inspect.getmembers` (alphabetical) order.  Note the subclass
overrides `report_results` with `@handle_exceptions(on_exception =
"report_results")` and a body `return self.success(exit_to=self.exit)`. -/

def archiveMembers : List NodeMeta :=
  [ mkNode "copy_to_staging" false false ["encrypt_file"]
      ["remove_copied_file"]
      "Copy the source file to the staging folder."
      (.handles "remove_copied_file"),
    mkNode "encrypt_file" false false ["ensure_archive_directory"]
      ["remove_copied_file"]
      "Encrypt the file in the staging folder using GPG."
      (.handles "remove_copied_file"),
    mkNode "ensure_archive_directory" false false ["move_to_archive"]
      ["remove_encrypted_file"]
      "Ensure the archive directory exists."
      (.handles "remove_encrypted_file"),
    mkNode "ensure_staging_directory" true false ["copy_to_staging"]
      ["report_results"]
      "Ensure the staging directory exists."
      (.handles "report_results"),
    mkNode "move_to_archive" false false ["report_results"]
      ["remove_encrypted_file"]
      "Move the encrypted file from staging to the archive folder."
      (.handles "remove_encrypted_file"),
    mkNode "remove_copied_file" false false ["report_results"]
      ["report_results"]
      "Remove the copied file from staging (on error path after copy or encrypt failure)."
      (.handles "report_results"),
    mkNode "remove_encrypted_file" false false ["remove_copied_file"]
      ["remove_copied_file"]
      "Remove the encrypted file from staging (on error path after encryption, archive directory, or move failure)."
      (.handles "remove_copied_file"),
    mkNode "report_results" false true [] []
      "Report the Success/Failure outcomes."
      (.handles "report_results") ]

def archiveDef : ClassDef :=
  { docstring := some
      ("Archive a file by copying it to a staging folder, encrypting it using GPG, and moving the encrypted file to an archive folder.", "")
    members := archiveMembers
    extra_attrs := abstractMachineAttrs }

def archiveCls : MachineClass :=
  partitionClass
    "Archive a file by copying it to a staging folder, encrypting it using GPG, and moving the encrypted file to an archive folder."
    "" archiveMembers abstractMachineAttrs

/-- The node bodies of `MachineArchiveEncrypted` when every
`DependencyArchiveEncrypted` operation succeeds (the mocked happy path of
`tests/service/archive_encrypted/test_archive_encrypted_machine.py`): each
node returns `self.success(exit_to=<its declared successor>)`;
`report_results` returns `self.success(exit_to=self.exit)` — `exit` being
the plain (non-node) base-class method. -/
def archiveBody : String → Unit → TransValue × Unit
  | "ensure_staging_directory", _ =>
    (.transition (.success "MachineArchiveEncrypted.ensure_staging_directory")
      "copy_to_staging", ())
  | "copy_to_staging", _ =>
    (.transition (.success "MachineArchiveEncrypted.copy_to_staging")
      "encrypt_file", ())
  | "encrypt_file", _ =>
    (.transition (.success "MachineArchiveEncrypted.encrypt_file")
      "ensure_archive_directory", ())
  | "ensure_archive_directory", _ =>
    (.transition (.success "MachineArchiveEncrypted.ensure_archive_directory")
      "move_to_archive", ())
  | "move_to_archive", _ =>
    (.transition (.success "MachineArchiveEncrypted.move_to_archive")
      "report_results", ())
  | "remove_copied_file", _ =>
    (.transition (.success "MachineArchiveEncrypted.remove_copied_file")
      "report_results", ())
  | "remove_encrypted_file", _ =>
    (.transition (.success "MachineArchiveEncrypted.remove_encrypted_file")
      "remove_copied_file", ())
  | "report_results", _ =>
    (.transition (.success "MachineArchiveEncrypted.report_results")
      "exit", ())
  | _, _ => (.nonTransition, ())

def archiveProg : MachineProg Unit :=
  { cls := archiveCls
    ctx := { className := "MachineArchiveEncrypted"
             failurePrefix := "MachineArchiveEncrypted" }
    body := archiveBody }

/-! ### Derived notions used in the statements. -/

/-- The legality of one observed step: the node recorded as `p.1` declares
the next executed node among its exits, with the happy list governing a
`Success` result and the unhappy list a `Failure` result.  This is the
per-edge property the driver's runtime checks enforce. -/
def edgeOkB (cls : MachineClass) (p : String × Result) (next : String) :
    Bool :=
  match getattrNode cls p.1 with
  | none => false
  | some m =>
    m.exits.contains next &&
    (!p.2.isSuccess || m.happy_paths.contains next) &&
    (!p.2.isFailure || m.unhappy_paths.contains next)

/-- Every consecutive pair of recorded steps is a legal declared edge. -/
def pairwiseEdgeOkB (cls : MachineClass) :
    List (String × Result) → Bool
  | p :: q :: rest => edgeOkB cls p q.1 && pairwiseEdgeOkB cls (q :: rest)
  | _ => true

/-- Loop invariant linking an accumulated trace to the node about to run:
adjacent recorded steps are legal edges and the trace's last step legally
leads to `next`. -/
def chainOkB (cls : MachineClass) :
    List (String × Result) → String → Bool
  | [], _ => true
  | [p], next => edgeOkB cls p next
  | p :: q :: rest, next =>
    edgeOkB cls p q.1 && chainOkB cls (q :: rest) next

/-- The last recorded step was produced by a node with no declared exit
paths (the only nodes from which the driver accepts an `Exit`). -/
def lastExitOkB (cls : MachineClass) (steps : List (String × Result)) :
    Bool :=
  match steps.getLast? with
  | none => false
  | some p =>
    match getattrNode cls p.1 with
    | none => false
    | some m => m.exits.isEmpty

/-- Modelled from the spec: reachability of node `c` from node `a` through
the declared edges, i.e. the reflexive-transitive closure of the `exits`
relation ("every non-entry node n of M is reachable from the entry node via
declared edges (transitive closure of `exits`)").  This is the property the
spec attributes to the validator; the validator's own check is
`checkReachableAndTerminal`. -/
inductive Reaches (cls : MachineClass) : String → String → Prop
  | refl (n : String) : Reaches cls n n
  | step {a b c : String} {m : NodeMeta} : Reaches cls a b →
      getattrNode cls b = some m → c ∈ m.exits → Reaches cls a c

/-- A plain valid node docstring (the `"Yo."` docstrings of the unit
tests), for exercising the `@node` decorator. -/
def basicDoc : DocSpec :=
  { overview := "Yo."
    is_entry := false
    is_terminal := false
    happy_paths := []
    unhappy_paths := []
    invokes_machine := "" }

/-- The metadata of `MachineArchiveEncrypted.remove_encrypted_file`: the
one node of the repository that lists the same successor
(`remove_copied_file`) as both its happy and its unhappy path. -/
def remove_encrypted_file_meta : NodeMeta :=
  mkNode "remove_encrypted_file" false false ["remove_copied_file"]
    ["remove_copied_file"]
    "Remove the encrypted file from staging (on error path after encryption, archive directory, or move failure)."
    (.handles "remove_copied_file")

/-- A node whose body always raises, for exercising the
`@handle_exceptions` fault barrier. -/
def raisingNode : RawNode Unit :=
  { meta := mkNode "boom" false false ["ok_node"] ["handler"] "Yo."
      .unspecified
    body := fun _ s => .raises "uh oh" s }

/-! ## Helper lemmas -/

theorem getattrNode_name_eq {cls : MachineClass} {nm : String}
    {m : NodeMeta} (h : getattrNode cls nm = some m) : m.node_name = nm := by
  have hp := List.find?_some (by simpa [getattrNode] using h)
  exact eq_of_beq hp

/-! ## C3 — validator gating on `__debug__` -/

/-- C3, counterexample: the claim says the validator runs unconditionally
at type definition regardless of debug/release mode, so that a machine
violating an invariant can never be instantiated.  But `machine.py` guards
the `cls.validate()` call with `if __debug__:`.  With `__debug__` off
(python `-O`), the decorator happily constructs a machine type with no
entry node — the very input on which the validator (invoked with the
default `__debug__ = True`) raises `NoEntryNodeError`. -/
theorem machine_decorator_skips_validation_without_debug :
    (machine_decorator false noEntryDef).isOk = true ∧
    machine_decorator true noEntryDef = .error .noEntryNode := by
  exact ⟨rfl, rfl⟩

/-- C3, amended: whenever `__debug__` is true (the interpreter default, in
particular in all of the repository's tests), the `@machine` decorator does
run the validator, so a machine type it returns satisfies `validate`. -/
theorem machine_decorator_validates_when_debug (cls : ClassDef)
    (mc : MachineClass) (h : machine_decorator true cls = .ok mc) :
    ∃ e, validate mc = .ok e := by
  unfold machine_decorator at h
  simp only [Bool.true_and] at h
  split at h
  · cases h
  · split at h
    · cases h
    · split at h
      · split at h
        · cases h
        · rename_i hv
          cases h
          exact ⟨_, hv⟩
      · rename_i hd
        exact absurd trivial hd

/-- C3, amended, witness: the happy-path test machine goes through the
decorator with debugging on, hence validates. -/
theorem machine_decorator_validates_when_debug_witness :
    ∃ e, validate testHappyCls = .ok e :=
  machine_decorator_validates_when_debug testHappyDef testHappyCls rfl

/-! ## C6 — the reserved-name guard of `@node` -/

/-- C6, counterexample: the claim's reserved list contains `exception` and
`report_results` and nothing else beyond the machine-base names.  The
actual tuple in `node.py` has the misspelling `excetion` instead of
`exception`, omits `report_results` (which the base class itself decorates
with `@node`), and additionally contains `master_config` and `my_config`,
which are no attributes of the machine base.  So decorating a node named
`exception` or `report_results` succeeds, while `master_config` is
rejected. -/
theorem node_decorator_reserved_counterexample :
    node_decorator "exception" (some basicDoc) =
      .ok (mkNode "exception" false false [] [] "Yo." .unspecified) ∧
    node_decorator "report_results" (some basicDoc) =
      .ok (mkNode "report_results" false false [] [] "Yo." .unspecified) ∧
    node_decorator "master_config" (some basicDoc) =
      .error (.overrideError "master_config") := by
  exact ⟨rfl, rfl, rfl⟩

/-- C6, amended: `@node` raises `OverrideError` exactly for the names of
the `reserved_method_names` tuple of `node.py` — `validate`, `excetion`
(sic), `exit`, `failure`, `execute`, `success`, `failure_prefix`, `logger`,
`master_config`, `my_config`, `node_name`, `state` — and for no other
name. -/
theorem node_decorator_reserved_iff (name : String) (d : Option DocSpec) :
    node_decorator name d = .error (.overrideError name) ↔
      reserved_method_names.contains name = true := by
  constructor
  · intro h
    by_contra hc
    unfold node_decorator at h
    rw [if_neg (by simpa using hc)] at h
    match d with
    | none => cases h
    | some doc =>
      dsimp only at h
      split at h
      · cases h
      · cases h
  · intro h
    unfold node_decorator
    rw [if_pos (by simpa using h)]

/-- C6, amended, witness: the reserved name `validate` is rejected. -/
theorem node_decorator_reserved_iff_witness :
    node_decorator "validate" (some basicDoc) =
      .error (.overrideError "validate") :=
  (node_decorator_reserved_iff "validate" (some basicDoc)).mpr rfl

/-! ## C2 — the archive-encrypt happy path -/

/-- C2: the claim (and the repository's own
`test_archive_encrypted_machine.test_happy_path`) expects the machine type
to construct and `execute()` to return one `Success` per node in pipeline
order, ending at `report_results`.  The code cannot do either: the
validator rejects the class because `report_results` declares
`@handle_exceptions(on_exception="report_results")` while its
`unhappy_paths` list is empty, and even with validation bypassed the
`report_results` body returns `self.success(exit_to=self.exit)` — a
transition to the non-node base method `exit` — instead of `self.exit()`,
so the driver raises an `AttributeError` reading `__node_name__` after the
five preceding successes. -/
theorem archive_happy_path_is_rejected :
    machine_decorator true archiveDef =
      .error (.illegalTransition
        "report_results exception handler not an allowable exit: report_results") ∧
    execute true archiveProg () 20 =
      .error (.attributeError "__node_name__")
        [("ensure_staging_directory",
            .success "MachineArchiveEncrypted.ensure_staging_directory"),
         ("copy_to_staging",
            .success "MachineArchiveEncrypted.copy_to_staging"),
         ("encrypt_file",
            .success "MachineArchiveEncrypted.encrypt_file"),
         ("ensure_archive_directory",
            .success "MachineArchiveEncrypted.ensure_archive_directory"),
         ("move_to_archive",
            .success "MachineArchiveEncrypted.move_to_archive")] := by
  exact ⟨rfl, rfl⟩

/-! ## C9 — the same successor on both the happy and the unhappy list -/

/-- C9: `remove_encrypted_file` lists `remove_copied_file` as both its
happy and its unhappy path; neither decoration nor any validator rule
objects to the duplication, and at runtime both a `Success`-carrying and a
`Failure`-carrying transition along that edge pass every one of the
driver's legality guards (`failsCheck` is the disjunction of those
guards).  The machine as a whole nevertheless fails validation — not
because of the duplication but because of the `report_results` exception
handler, contradicting the repository's own tests, which execute this
machine. -/
theorem duplicate_successor_edge_is_legal :
    getattrNode archiveCls "remove_encrypted_file" =
      some remove_encrypted_file_meta ∧
    remove_encrypted_file_meta.happy_paths.contains "remove_copied_file" =
      true ∧
    remove_encrypted_file_meta.unhappy_paths.contains "remove_copied_file" =
      true ∧
    failsCheck archiveCls remove_encrypted_file_meta
      (.transition (.success "MachineArchiveEncrypted.remove_encrypted_file")
        "remove_copied_file") = false ∧
    failsCheck archiveCls remove_encrypted_file_meta
      (.transition
        (.failure "MachineArchiveEncrypted.remove_encrypted_file" "uh oh")
        "remove_copied_file") = false ∧
    validate archiveCls =
      .error (.illegalTransition
        "report_results exception handler not an allowable exit: report_results") := by
  exact ⟨rfl, rfl, rfl, rfl, rfl, rfl⟩

/-! ## C5 — the `@handle_exceptions` fault barrier -/

/-- C5: when the original body of a `handle_exceptions(on_exception = X)`
node raises any exception `e`, the wrapper returns — rather than
propagates — a transition to `X` carrying a `Failure` whose node is the
qualified current-node name and whose message is
`"<failure_prefix> unrecognized exception: <e>"`; and the wrapper copies
the node metadata (`exits`, `happy_paths`, `unhappy_paths`, `is_entry`,
`is_terminal`) of the original body unchanged. -/
theorem handle_exceptions_barrier {σ : Type} (rn : RawNode σ) (X : String)
    (ctx : Ctx) (s s2 : σ) (e : String)
    (h : rn.body ctx s = .raises e s2) :
    (handle_exceptions_decorator X rn).body ctx s =
      .returns
        (.transition
          (.failure (ctx.className ++ "." ++ rn.meta.node_name)
            (ctx.failurePrefix ++ " unrecognized exception: " ++ e))
          X) s2 ∧
    (handle_exceptions_decorator X rn).meta.exits = rn.meta.exits ∧
    (handle_exceptions_decorator X rn).meta.happy_paths =
      rn.meta.happy_paths ∧
    (handle_exceptions_decorator X rn).meta.unhappy_paths =
      rn.meta.unhappy_paths ∧
    (handle_exceptions_decorator X rn).meta.is_entry = rn.meta.is_entry ∧
    (handle_exceptions_decorator X rn).meta.is_terminal =
      rn.meta.is_terminal := by
  refine ⟨?_, rfl, rfl, rfl, rfl, rfl⟩
  simp only [handle_exceptions_decorator, exceptionHelper, h]

/-- C5, witness: a concrete always-raising node wrapped with
`handle_exceptions(on_exception="handler")`. -/
theorem handle_exceptions_barrier_witness :
    (handle_exceptions_decorator "handler" raisingNode).body
        { className := "Machine", failurePrefix := "Machine" } () =
      .returns
        (.transition
          (.failure "Machine.boom" "Machine unrecognized exception: uh oh")
          "handler") () ∧
    (handle_exceptions_decorator "handler" raisingNode).meta.exits =
      raisingNode.meta.exits ∧
    (handle_exceptions_decorator "handler" raisingNode).meta.happy_paths =
      raisingNode.meta.happy_paths ∧
    (handle_exceptions_decorator "handler" raisingNode).meta.unhappy_paths =
      raisingNode.meta.unhappy_paths ∧
    (handle_exceptions_decorator "handler" raisingNode).meta.is_entry =
      raisingNode.meta.is_entry ∧
    (handle_exceptions_decorator "handler" raisingNode).meta.is_terminal =
      raisingNode.meta.is_terminal :=
  handle_exceptions_barrier raisingNode "handler"
    { className := "Machine", failurePrefix := "Machine" } () () "uh oh" rfl

/-! ## C7 — `Exit` from a node that is not terminal -/

/-- C7, counterexample: the claim says an `Exit` from any node whose
`is_terminal` is false raises `NotTerminalNodeError`.  The driver's guard
actually tests `self._current_node.__exits__` for emptiness, not
`__is_terminal__`.  The machine `midExitCls` passes validation, its node
`mid` is not terminal and has no declared exits, its body returns `Exit` —
and the run completes normally with `mid`'s result as the last entry. -/
theorem exit_from_nonterminal_accepted :
    (validate midExitCls).isOk = true ∧
    getattrNode midExitCls "mid" =
      some (mkNode "mid" false false [] [] "Yo." .noExceptions) ∧
    (mkNode "mid" false false [] [] "Yo."
      ExceptionPolicy.noExceptions).is_terminal = false ∧
    execute true midExitProg () 10 =
      .ok [("entry", .success "Machine.entry"),
           ("mid", .success "Machine.mid")] := by
  exact ⟨rfl, rfl, rfl, rfl⟩

/-- C7, amended: the driver raises `NotTerminalNodeError` on an `Exit`
exactly when the node that returned it has a non-empty declared exits
list (every node validated as terminal has an empty one, but a
non-terminal node with no declared exits may return `Exit` freely). -/
theorem exit_with_exits_raises {σ : Type} (p : MachineProg σ) (fuel : Nat)
    (name : String) (s : σ) (acc : List (String × Result)) (m : NodeMeta)
    (r : Result) (s2 : σ)
    (hm : getattrNode p.cls name = some m)
    (hne : m.exits.isEmpty = false)
    (hbody : p.body name s = (.exit r, s2)) :
    execLoop true p (fuel + 1) name s acc =
      .error (.notTerminalNode (p.ctx.className ++ "." ++ name ++
        " returned Exit but is not a terminal node.")) acc := by
  simp only [execLoop, hm, hbody, hne, Bool.not_false, if_true]

/-- C7, amended, witness: the entry node of `entryExitCls` declares
`report_results` as an exit yet returns `Exit`; the driver refuses. -/
theorem exit_with_exits_raises_witness :
    execLoop true entryExitProg 10 "entry" () [] =
      .error (.notTerminalNode
        "Machine.entry returned Exit but is not a terminal node.") [] :=
  exit_with_exits_raises entryExitProg 9 "entry" () []
    (mkNode "entry" true false ["report_results"] [] "Yo." .noExceptions)
    (.success "Machine.entry") () rfl rfl rfl

/-! ## C8 — exit names that do not resolve to a node -/

/-- C8, counterexample: the claim says every exits name without a
corresponding node raises `UndefinedNodeError`.  `validate` raises
`UndefinedNodeError` only when the name is no attribute of the class at
all; the name `execute` — which is an attribute of the machine base but
not a node — instead makes `exits.append(method.__node_name__)` raise a
plain `AttributeError`. -/
theorem nonnode_exit_name_attribute_error :
    getattrNode executeExitCls "execute" = none ∧
    validate executeExitCls = .error (.attributeError "execute") ∧
    validate executeExitCls ≠
      .error (.undefinedNode "entry" "execute") := by
  refine ⟨rfl, rfl, ?_⟩
  intro h
  rw [show validate executeExitCls =
    .error (.attributeError "execute") from rfl] at h
  injection h with h2
  cases h2

/-! ## Lemmas about the validator's loops -/

theorem checkReachableAndTerminal_ok_mem (exits : List String) :
    ∀ (ns : List NodeMeta), checkReachableAndTerminal exits ns = .ok () →
      ∀ n ∈ ns, n.is_entry = false → exits.contains n.node_name = true := by
  intro ns
  induction ns with
  | nil => intro _ n hn; cases hn
  | cons a rest ih =>
    intro h n hn hne
    unfold checkReachableAndTerminal at h
    split at h
    · cases h
    · split at h
      · cases h
      · rename_i h1 h2
        rcases List.mem_cons.mp hn with rfl | hmem
        · simp only [hne, Bool.not_false, Bool.true_and, Bool.not_eq_true',
            Bool.not_eq_false] at h1
          simpa using h1
        · exact ih h n hmem hne

theorem compileExitsOf_ok_resolve {cls : MachineClass} {owner : String} :
    ∀ (names : List String) (ex : List String),
      compileExitsOf cls owner names = .ok ex →
      ∀ nm ∈ names, (getattrNode cls nm).isSome = true := by
  intro names
  induction names with
  | nil => intro ex _ nm hnm; cases hnm
  | cons a rest ih =>
    intro ex h nm hnm
    unfold compileExitsOf at h
    split at h
    · split at h
      · rename_i m hm
        rcases List.mem_cons.mp hnm with rfl | hmem
        · simp [hm]
        · cases htail : compileExitsOf cls owner rest with
          | error er => rw [htail] at h; simp [Bind.bind, Except.bind] at h
          | ok tail => exact ih tail htail nm hmem
      · cases h
    · cases h

theorem compileExits_ok_resolve {cls : MachineClass} :
    ∀ (ns : List NodeMeta) (ex : List String),
      compileExits cls ns = .ok ex →
      ∀ n ∈ ns, ∀ nm ∈ n.exits, (getattrNode cls nm).isSome = true := by
  intro ns
  induction ns with
  | nil => intro ex _ n hn; cases hn
  | cons a rest ih =>
    intro ex h n hn nm hnm
    unfold compileExits at h
    cases hhead : compileExitsOf cls a.node_name a.exits with
    | error er => rw [hhead] at h; simp [Bind.bind, Except.bind] at h
    | ok exh =>
      rw [hhead] at h
      cases htail : compileExits cls rest with
      | error er => rw [htail] at h; simp [Bind.bind, Except.bind] at h
      | ok tail =>
        rcases List.mem_cons.mp hn with rfl | hmem
        · exact compileExitsOf_ok_resolve n.exits exh hhead nm hnm
        · exact ih tail htail n hmem nm hnm

theorem except_bind_ok {ε : Type} {α β : Type} (a : α)
    (f : α → Except ε β) : (Except.ok a >>= f) = f a := rfl

theorem except_bind_error {ε : Type} {α β : Type} (er : ε)
    (f : α → Except ε β) :
    ((Except.error er : Except ε α) >>= f) =
      (Except.error er : Except ε β) := rfl

theorem validate_ok_parts {cls : MachineClass} {e : NodeMeta}
    (h : validate cls = .ok e) :
    ∃ ex, compileExits cls
        (cls.entry_nodes ++ cls.nodes ++ cls.terminal_nodes) = .ok ex ∧
      checkReachableAndTerminal ex
        (cls.entry_nodes ++ cls.nodes ++ cls.terminal_nodes) = .ok () := by
  unfold validate at h
  split at h
  · cases h
  · split at h
    · cases h
    · split at h
      · cases h
      · dsimp only at h
        cases hce : compileExits cls
            (cls.entry_nodes ++ cls.nodes ++ cls.terminal_nodes) with
        | error er => rw [hce] at h; simp only [except_bind_error] at h; simp at h
        | ok ex =>
          rw [hce] at h
          simp only [except_bind_ok] at h
          cases hcs : checkExceptionSpecs
              (cls.entry_nodes ++ cls.nodes ++ cls.terminal_nodes) with
          | error er => rw [hcs] at h; simp only [except_bind_error] at h; simp at h
          | ok u =>
            cases u
            rw [hcs] at h
            simp only [except_bind_ok] at h
            cases hrt : checkReachableAndTerminal ex
                (cls.entry_nodes ++ cls.nodes ++ cls.terminal_nodes) with
            | error er => rw [hrt] at h; simp only [except_bind_error] at h; simp at h
            | ok u2 =>
              cases u2
              exact ⟨ex, rfl, hrt⟩

/-! ## C4 — reachability -/

/-- C4, counterexample: the claim says every node of a validated machine is
reachable from the entry node through the transitive closure of the
declared edges.  `lonerCls` validates — the check only asks that each
non-entry node's name occur somewhere in the concatenation of all exits
lists, and `loner` occurs in its own — yet no `Reaches` path connects the
entry node to `loner`. -/
theorem validated_machine_with_unreachable_node :
    (validate lonerCls).isOk = true ∧
    getattrNode lonerCls "loner" =
      some (mkNode "loner" false false ["loner"] [] "Yo." .noExceptions) ∧
    (mkNode "loner" false false ["loner"] [] "Yo."
      ExceptionPolicy.noExceptions).is_entry = false ∧
    ¬ Reaches lonerCls "entry" "loner" := by
  refine ⟨rfl, rfl, rfl, ?_⟩
  intro h
  have key : ∀ x, Reaches lonerCls "entry" x →
      x = "entry" ∨ x = "report_results" := by
    intro x hx
    induction hx with
    | refl => exact Or.inl rfl
    | step hab hm hc ih =>
      rcases ih with hb | hb
      · subst hb
        rw [show getattrNode lonerCls "entry" =
            some (mkNode "entry" true false ["report_results"] [] "Yo."
              ExceptionPolicy.noExceptions) from rfl] at hm
        injection hm with hm
        subst hm
        simp only [NodeMeta.exits, mkNode, List.append_nil,
          List.mem_singleton] at hc
        exact Or.inr hc
      · subst hb
        rw [show getattrNode lonerCls "report_results" =
            some baseReportResults from rfl] at hm
        injection hm with hm
        subst hm
        simp [NodeMeta.exits, baseReportResults, mkNode] at hc
  have hmem := key "loner" h
  rcases hmem with hb | hb <;> exact absurd hb (by decide)

/-- C4, amended: what validation actually guarantees is that every
non-entry node's name occurs in the compiled exits list — the concatenation
of every node's declared exits (the node's own lists included) resolved
through `getattr` — which is strictly weaker than reachability from the
entry node. -/
theorem validated_nonentry_in_compiled_exits (cls : MachineClass)
    (e : NodeMeta) (h : validate cls = .ok e) (m : NodeMeta)
    (hm : m ∈ cls.entry_nodes ++ cls.nodes ++ cls.terminal_nodes)
    (hme : m.is_entry = false) :
    ∃ ex, compileExits cls
        (cls.entry_nodes ++ cls.nodes ++ cls.terminal_nodes) = .ok ex ∧
      ex.contains m.node_name = true := by
  rcases validate_ok_parts h with ⟨ex, hce, hrt⟩
  exact ⟨ex, hce, checkReachableAndTerminal_ok_mem ex _ hrt m hm hme⟩

/-- C4, amended, witness: the `happy` node of the happy-path test machine
occurs in the compiled exits list. -/
theorem validated_nonentry_in_compiled_exits_witness :
    ∃ ex, compileExits testHappyCls
        (testHappyCls.entry_nodes ++ testHappyCls.nodes ++
          testHappyCls.terminal_nodes) = .ok ex ∧
      ex.contains "happy" = true :=
  validated_nonentry_in_compiled_exits testHappyCls
    (mkNode "entry" true false ["happy"] ["unhappy"] "Yo." .noExceptions)
    rfl
    (mkNode "happy" false false ["happier"] ["unhappy"] "Yo." .noExceptions)
    (by decide) rfl

/-- C8, amended: an exits name that is no attribute of the class at all
raises `UndefinedNodeError` (shown on the `bob` machine of
`test_machine_undefined_node`), an existing non-node attribute raises
`AttributeError` (the counterexample theorem), and when validation
succeeds every name in every node's exits resolves to a node member. -/
theorem validated_exits_resolve :
    (∀ (cls : MachineClass) (e : NodeMeta), validate cls = .ok e →
      ∀ m ∈ cls.entry_nodes ++ cls.nodes ++ cls.terminal_nodes,
        ∀ nm ∈ m.exits, (getattrNode cls nm).isSome = true) ∧
    validate bobCls = .error (.undefinedNode "entry" "bob") := by
  constructor
  · intro cls e h m hm nm hnm
    rcases validate_ok_parts h with ⟨ex, hce, _⟩
    exact compileExits_ok_resolve _ ex hce m hm nm hnm
  · rfl

/-- C8, amended, witness: in the validated happy-path test machine the
exit name `happy` of the entry node resolves to a node. -/
theorem validated_exits_resolve_witness :
    (getattrNode testHappyCls "happy").isSome = true :=
  validated_exits_resolve.1 testHappyCls
    (mkNode "entry" true false ["happy"] ["unhappy"] "Yo." .noExceptions)
    rfl
    (mkNode "entry" true false ["happy"] ["unhappy"] "Yo." .noExceptions)
    (by decide) "happy" (by decide)

/-! ## Lemmas about the driver loop's trace -/

theorem chainOkB_append_pairwise {cls : MachineClass} :
    ∀ (acc : List (String × Result)) (n : String) (r : Result),
      chainOkB cls acc n = true →
      pairwiseEdgeOkB cls (acc ++ [(n, r)]) = true := by
  intro acc
  induction acc with
  | nil => intro n r _; rfl
  | cons p rest ih =>
    intro n r h
    cases rest with
    | nil =>
      simp only [chainOkB] at h
      show pairwiseEdgeOkB cls (p :: [(n, r)]) = true
      simp [pairwiseEdgeOkB, h]
    | cons q rest2 =>
      simp only [chainOkB] at h
      rcases Bool.and_eq_true_iff.mp h with ⟨h1, h2⟩
      have h4 := ih n r h2
      show pairwiseEdgeOkB cls ((p :: q :: rest2) ++ [(n, r)]) = true
      simp only [List.cons_append, pairwiseEdgeOkB]
      rw [h1]
      simpa [List.cons_append] using h4

theorem chainOkB_extend {cls : MachineClass} :
    ∀ (acc : List (String × Result)) (n : String) (r : Result) (t : String),
      chainOkB cls acc n = true → edgeOkB cls (n, r) t = true →
      chainOkB cls (acc ++ [(n, r)]) t = true := by
  intro acc
  induction acc with
  | nil =>
    intro n r t _ he
    simpa [chainOkB] using he
  | cons p rest ih =>
    intro n r t h he
    cases rest with
    | nil =>
      simp only [chainOkB] at h
      show chainOkB cls (p :: [(n, r)]) t = true
      simp [chainOkB, h, he]
    | cons q rest2 =>
      simp only [chainOkB] at h
      rcases Bool.and_eq_true_iff.mp h with ⟨h1, h2⟩
      have h4 := ih n r t h2 he
      show chainOkB cls ((p :: q :: rest2) ++ [(n, r)]) t = true
      simp only [List.cons_append, chainOkB]
      rw [h1]
      simpa [List.cons_append] using h4

/-- The driver-loop invariant behind C1: a normally-returning run extends
an edge-legal accumulated trace into an edge-legal full trace ending at a
node with no declared exits. -/
theorem execLoop_ok_trace {σ : Type} (p : MachineProg σ) :
    ∀ (fuel : Nat) (name : String) (s : σ)
      (acc steps : List (String × Result)),
      chainOkB p.cls acc name = true →
      execLoop true p fuel name s acc = .ok steps →
      pairwiseEdgeOkB p.cls steps = true ∧
        lastExitOkB p.cls steps = true := by
  intro fuel
  induction fuel with
  | zero =>
    intro name s acc steps _ h
    simp only [execLoop] at h
    exact RunOutcome.noConfusion h
  | succ f ih =>
    intro name s acc steps hchain h
    simp only [execLoop] at h
    cases hcur : getattrNode p.cls name with
    | none => rw [hcur] at h; simp at h
    | some current =>
      rw [hcur] at h
      dsimp only at h
      cases hbody : p.body name s with
      | mk tv s2 =>
        rw [hbody] at h
        cases tv with
        | nonTransition => simp at h
        | exit r =>
          dsimp only at h
          cases hex : current.exits.isEmpty with
          | false => simp [hex] at h
          | true =>
            simp only [hex, Bool.not_true, Bool.false_eq_true, if_false] at h
            have hsteps : acc ++ [(name, r)] = steps := by
              simpa using h
            subst hsteps
            refine ⟨chainOkB_append_pairwise acc name r hchain, ?_⟩
            simp only [lastExitOkB, List.getLast?_append_cons,
              List.getLast?_singleton, hcur]
            exact hex
        | transition r target =>
          dsimp only at h
          cases htgt : getattrNode p.cls target with
          | none => simp [htgt] at h
          | some tgt =>
            have htname : tgt.node_name = target := getattrNode_name_eq htgt
            rw [htgt] at h
            dsimp only at h
            cases hc1 : current.exits.contains tgt.node_name with
            | false => rw [hc1] at h; simp at h
            | true =>
              rw [hc1] at h
              cases r with
              | success node =>
                cases hc3 : current.happy_paths.contains tgt.node_name with
                | false =>
                  rw [hc3] at h
                  simp [Result.isSuccess, Result.isFailure] at h
                | true =>
                  rw [hc3] at h
                  simp only [Result.isSuccess, Result.isFailure] at h
                  simp at h
                  have hedge : edgeOkB p.cls (name, Result.success node)
                      target = true := by
                    simp only [edgeOkB, hcur, Result.isSuccess,
                      Result.isFailure, ← htname]
                    simp
                    exact ⟨by simpa using hc1, by simpa using hc3⟩
                  exact ih target s2 (acc ++ [(name, Result.success node)])
                    steps
                    (chainOkB_extend acc name (Result.success node) target
                      hchain hedge) h
              | failure node msg =>
                cases hc2 : current.unhappy_paths.contains tgt.node_name with
                | false =>
                  rw [hc2] at h
                  simp [Result.isSuccess, Result.isFailure] at h
                | true =>
                  rw [hc2] at h
                  simp only [Result.isSuccess, Result.isFailure] at h
                  simp at h
                  have hedge : edgeOkB p.cls (name, Result.failure node msg)
                      target = true := by
                    simp only [edgeOkB, hcur, Result.isSuccess,
                      Result.isFailure, ← htname]
                    simp
                    exact ⟨by simpa using hc1, by simpa using hc2⟩
                  exact ih target s2
                    (acc ++ [(name, Result.failure node msg)]) steps
                    (chainOkB_extend acc name (Result.failure node msg) target
                      hchain hedge) h

/-! ## C1 — the shape of a normally-returning run's result list -/

/-- C1: every run of `execute` that returns normally yields one recorded
result per executed node, in execution order; every consecutive pair of
recorded steps is a declared edge of the machine — through the happy list
when the earlier result is a `Success` and through the unhappy list when
it is a `Failure` — and the final entry is the `Exit`'s embedded result,
produced by a node with no declared exits. -/
theorem execute_trace_edges {σ : Type} (p : MachineProg σ) (s : σ)
    (fuel : Nat) (steps : List (String × Result))
    (h : execute true p s fuel = .ok steps) :
    pairwiseEdgeOkB p.cls steps = true ∧ lastExitOkB p.cls steps = true := by
  unfold execute at h
  split at h
  · cases h
  · exact execLoop_ok_trace p fuel _ s [] steps rfl h

/-- C1, witness: the four-step run of the happy-path test machine. -/
theorem execute_trace_edges_witness :
    pairwiseEdgeOkB testHappyCls
        [("entry", .success "Machine.entry"),
         ("happy", .failure "Machine.happy" "Machine uh oh"),
         ("unhappy", .success "Machine.unhappy"),
         ("report_results", .success "Machine.report_results")] = true ∧
    lastExitOkB testHappyCls
        [("entry", .success "Machine.entry"),
         ("happy", .failure "Machine.happy" "Machine uh oh"),
         ("unhappy", .success "Machine.unhappy"),
         ("report_results", .success "Machine.report_results")] = true :=
  execute_trace_edges testHappyProg () 10
    [("entry", .success "Machine.entry"),
     ("happy", .failure "Machine.happy" "Machine uh oh"),
     ("unhappy", .success "Machine.unhappy"),
     ("report_results", .success "Machine.report_results")] rfl

/-! ## C10 — a rejected transition leaves the results log untouched -/

/-- C10: whenever the value returned by the current node trips one of the
driver's runtime guards (`failsCheck`), the driver raises on the spot: the
outcome is an error carrying exactly the previously accepted results, with
no entry appended for the offending transition. -/
theorem failing_check_preserves_results {σ : Type} (p : MachineProg σ)
    (fuel : Nat) (name : String) (s : σ) (acc : List (String × Result))
    (current : NodeMeta) (tv : TransValue) (s2 : σ)
    (hcur : getattrNode p.cls name = some current)
    (hbody : p.body name s = (tv, s2))
    (hfail : failsCheck p.cls current tv = true) :
    ∃ e, execLoop true p (fuel + 1) name s acc = .error e acc := by
  simp only [execLoop, hcur, hbody]
  cases tv with
  | nonTransition => exact ⟨_, rfl⟩
  | exit r =>
    simp only [failsCheck] at hfail
    simp only [hfail, if_true]
    exact ⟨_, rfl⟩
  | transition r target =>
    simp only [failsCheck] at hfail
    cases htgt : getattrNode p.cls target with
    | none => simp only [htgt]; exact ⟨_, rfl⟩
    | some tgt =>
      rw [htgt] at hfail
      dsimp only at hfail
      simp only [htgt, Bool.true_and]
      cases hc1 : current.exits.contains tgt.node_name with
      | false => simp only [hc1, Bool.not_false, if_true]; exact ⟨_, rfl⟩
      | true =>
        simp only [hc1, Bool.not_true, Bool.false_eq_true, if_false]
        rw [hc1] at hfail
        simp only [Bool.not_true, Bool.false_or] at hfail
        cases hc2 : r.isFailure &&
            !(current.unhappy_paths.contains tgt.node_name) with
        | true =>
          refine ⟨MachineError.illegalTransition
            (name ++ " made an unhappy transition on the happy path to " ++
              tgt.node_name), ?_⟩
          simp
        | false =>
          rw [hc2] at hfail
          simp only [Bool.false_or] at hfail
          rw [hfail]
          refine ⟨MachineError.illegalTransition
            (name ++ " made an happy transition on the unhappy path to " ++
              tgt.node_name), ?_⟩
          simp

/-- C10, witness: in the machine of `test_failure_down_happy_path` the
entry node sends a `Failure` to `happy`, which is not among its unhappy
paths; the driver raises with the results log still empty. -/
theorem failing_check_preserves_results_witness :
    ∃ e, execLoop true testFailHappyProg (9 + 1) "entry" () [] =
      .error e [] :=
  failing_check_preserves_results testFailHappyProg 9 "entry" () []
    (mkNode "entry" true false ["happy"] ["unhappy"] "Yo." .noExceptions)
    (.transition (.failure "Machine.entry" "Machine uh oh") "happy") ()
    rfl rfl rfl

end StateMachine
